import Mathlib

/-
Formal model of the session-orchestration and event-fanout server of the
computer-use demo (computer_use_demo/api/server.py).

The SQLite store is modelled as a pure value (`DB`), the in-memory
registries (`SESSIONS`, `WS_CLIENTS`) as association lists keyed by the
session identifier, and the asyncio concurrency as a small-step relation
(`Step`) whose atomic segments are exactly the code regions between
suspension points (`await`) of the handlers.  Wall-clock reads
(`datetime.utcnow()`) are modelled as explicit `Nat` arguments; the
timestamp-derived session identifier is modelled by the tick itself, since
`strftime` of a microsecond tick is injective.  Message content is kept as
an opaque `String` payload (the JSON serialisation round-trips).
-/

namespace Server

/-- Modelled from the spec: the provider selector (`APIProvider`) is imported
from the agent-loop module `computer_use_demo/loop.py`, which is not part of
the sources here; the spec describes a "provider selector" configuration with
the Anthropic provider as the request default, and the credential guard in
`create_session` compares the chosen provider against the Anthropic member
specifically, so the selector has non-Anthropic members; the loop module of
this repository defines the Anthropic, Bedrock and Vertex providers. -/
inductive APIProvider where
  | anthropic
  | bedrock
  | vertex
  deriving DecidableEq, Repr

/-- One in-memory conversation turn (a `BetaMessageParam`): a role together
with an opaque content payload. -/
structure HMsg where
  role : String
  content : String
  deriving DecidableEq, Repr

/-- One row of the `messages` table: autoincrement id, owning session,
role, content payload (`content_json`) and creation time. -/
structure DBMessage where
  id : Nat
  sessionId : Nat
  role : String
  content : String
  createdAt : Nat
  deriving DecidableEq, Repr

/-- One row of the `sessions` table. -/
structure DBSessionRow where
  id : Nat
  createdAt : Nat
  provider : APIProvider
  model : String
  toolVersion : String
  systemPromptSuffix : String
  onlyNMostRecentImages : Option Int
  outputTokens : Int
  thinkingEnabled : Bool
  thinkingBudget : Option Int
  tokenEfficientToolsBeta : Bool
  status : String
  deriving DecidableEq, Repr

/-- The SQLite database: the two tables plus the autoincrement counter of the
`messages` table (SQLite assigns ids starting from 1). -/
structure DB where
  sessions : List DBSessionRow
  messages : List DBMessage
  nextMessageId : Nat
  deriving DecidableEq, Repr

/-- The configuration fields of `CreateSessionRequest`. -/
structure SessionConfig where
  provider : APIProvider
  model : String
  toolVersion : String
  systemPromptSuffix : String
  onlyNMostRecentImages : Option Int
  outputTokens : Int
  thinkingEnabled : Bool
  thinkingBudget : Option Int
  tokenEfficientToolsBeta : Bool
  deriving DecidableEq, Repr

/-- The in-memory `SessionState` dataclass. -/
structure SessionState where
  id : Nat
  provider : APIProvider
  model : String
  toolVersion : String
  systemPromptSuffix : String
  onlyNMostRecentImages : Option Int
  outputTokens : Int
  thinkingEnabled : Bool
  thinkingBudget : Option Int
  tokenEfficientToolsBeta : Bool
  apiKey : String
  messages : List HMsg
  isRunning : Bool
  deriving DecidableEq, Repr

/-- The `SessionResponse` descriptor returned by `create_session`. -/
structure SessionResponse where
  id : Nat
  createdAt : Nat
  status : String
  provider : APIProvider
  model : String
  toolVersion : String
  deriving DecidableEq, Repr

/-- The tagged union of events sent over a session's fanout channel. -/
inductive Event where
  | history (messages : List DBMessage)
  | assistantBlock (block : String)
  | toolResult (toolUseId : String) (output : Option String)
      (error : Option String) (base64Image : Option String)
  | apiExchange (status : Option Nat) (error : Option String)
  | done
  | error (message : String)
  deriving DecidableEq, Repr

/-- Whether an event is the initial `history` backlog event. -/
def Event.isHistory : Event → Bool
  | .history _ => true
  | _ => false

/-- Whether an event is one that the agent-loop collaborator's callbacks
produce (`output_callback`, `tool_output_callback`, `api_response_callback`). -/
def Event.isCallback : Event → Bool
  | .assistantBlock _ => true
  | .toolResult _ _ _ _ => true
  | .apiExchange _ _ => true
  | _ => false

/-- A pending atomic continuation of one of the asyncio coroutines.  Each
constructor marks the code point right after a suspension point of the
corresponding handler in server.py. -/
inductive Task where
  /-- `post_message` after appending the user turn in memory, awaiting the
  `_insert_message` thread. -/
  | postInsert (sid : Nat) (text : String)
  /-- `post_message` after the durable insert, about to check `is_running`. -/
  | postCheck (sid : Nat)
  /-- a queued `_run_agent_for_session` background task, before its guard. -/
  | runPending (sid : Nat)
  /-- `_run_agent_for_session` past the guard, awaiting `sampling_loop`;
  `snap` is `len(messages_before)`. -/
  | runAwait (sid : Nat) (snap : Nat)
  /-- `_run_agent_for_session` after the `done`/`error` broadcast, with the
  `finally` block still pending. -/
  | runFinalize (sid : Nat)
  /-- `websocket_endpoint` after registering the socket, awaiting the
  `_get_messages` thread before sending the `history` frame. -/
  | wsHist (sid : Nat) (ws : Nat)
  deriving DecidableEq, Repr

/-- Whether a task is an agent run that is in progress for `sid`: the
coordinator is between its check-and-flip guard and the end of its
`finally` block. -/
def Task.isActiveRun (sid : Nat) : Task → Bool
  | .runAwait s _ => s = sid
  | .runFinalize s => s = sid
  | _ => false

/-- Whether a task is the pending history send of subscriber `ws`. -/
def Task.isWsFor (ws : Nat) : Task → Bool
  | .wsHist _ w => w = ws
  | _ => false

/-- The whole server state: the in-memory `SESSIONS` registry, the SQLite
database, the `WS_CLIENTS` subscriber sets, the events each subscriber's
socket has received so far, the pending coroutine continuations, and a
monotone clock supplying `datetime.utcnow()` reads. -/
structure ServerState where
  sessions : List (Nat × SessionState)
  db : DB
  clients : List (Nat × List Nat)
  delivered : List (Nat × List Event)
  tasks : List Task
  clock : Nat

/-- Association-list lookup (Python dict access). -/
def alookup {α : Type} : List (Nat × α) → Nat → Option α
  | [], _ => none
  | p :: rest, k => if p.1 = k then some p.2 else alookup rest k

/-- Adjust the value at key `k` with `f`, inserting `f dflt` when the key is
absent (the combined dict `setdefault`/assignment pattern). -/
def aadj {α : Type} : List (Nat × α) → Nat → (α → α) → α → List (Nat × α)
  | [], k, f, d => [(k, f d)]
  | p :: rest, k, f, d =>
    if p.1 = k then (p.1, f p.2) :: rest else p :: aadj rest k f d

/-- Dict assignment `m[k] = v`. -/
def aset {α : Type} (l : List (Nat × α)) (k : Nat) (v : α) : List (Nat × α) :=
  aadj l k (fun _ => v) v

/-- `SESSIONS.pop(session_id, None)`. -/
def popSession {α : Type} (l : List (Nat × α)) (k : Nat) : List (Nat × α) :=
  l.filter (fun p => ¬ p.1 = k)

/-- `WS_CLIENTS.get(session_id, set())`. -/
def clientsOf (c : List (Nat × List Nat)) (sid : Nat) : List Nat :=
  (alookup c sid).getD []

/-- The events a subscriber's socket has received, oldest first. -/
def deliveredTo (d : List (Nat × List Event)) (ws : Nat) : List Event :=
  (alookup d ws).getD []

/-- One successful `ws.send_json(event)`: append the event to the
subscriber's received stream. -/
def deliverOne (d : List (Nat × List Event)) (ws : Nat) (e : Event) :
    List (Nat × List Event) :=
  aadj d ws (fun l => l ++ [e]) []

/-- The send loop of `_broadcast`: iterate over the snapshot copy of the
subscriber set; a send either succeeds (`ok ws = true`, the event is
delivered) or raises (`ok ws = false`, the subscriber is collected into the
`dead` list); a failure never aborts the loop.  Returns the updated
delivery map and the `dead` list in collection order. -/
def sendLoop (ok : Nat → Bool) (e : Event) :
    List Nat → List (Nat × List Event) → List (Nat × List Event) × List Nat
  | [], d => (d, [])
  | ws :: rest, d =>
    if ok ws then
      sendLoop ok e rest (deliverOne d ws e)
    else
      let r := sendLoop ok e rest d
      (r.1, ws :: r.2)

/-- The cleanup loop of `_broadcast`: discard every dead subscriber from the
(current) live subscriber set. -/
def broadcastFinish (live : List Nat) (dead : List Nat) : List Nat :=
  dead.foldl (fun l w => l.filter (fun x => ¬ x = w)) live

/-- `_broadcast` in the interleaving semantics, where every send succeeds
(send failures are analysed separately with `sendLoop`). -/
def deliverAll (d : List (Nat × List Event)) (targets : List Nat) (e : Event) :
    List (Nat × List Event) :=
  targets.foldl (fun acc ws => deliverOne acc ws e) d

/-- `WS_CLIENTS.setdefault(session_id, set()).add(websocket)`. -/
def addClient (c : List (Nat × List Nat)) (sid : Nat) (ws : Nat) :
    List (Nat × List Nat) :=
  aadj c sid (fun l => if ws ∈ l then l else l ++ [ws]) []

/-- `WS_CLIENTS.setdefault(state.id, set())`. -/
def ensureClients (c : List (Nat × List Nat)) (sid : Nat) :
    List (Nat × List Nat) :=
  aadj c sid (fun l => l) []

/-- `WS_CLIENTS.get(session_id, set()).discard(websocket)`. -/
def removeClient (c : List (Nat × List Nat)) (sid : Nat) (ws : Nat) :
    List (Nat × List Nat) :=
  aadj c sid (fun l => l.filter (fun x => ¬ x = ws)) []

/-- Insertion step of insertion sort with respect to a boolean order. -/
def insSorted {α : Type} (le : α → α → Bool) (a : α) : List α → List α
  | [] => [a]
  | b :: l => if le a b then a :: b :: l else b :: insSorted le a l

/-- Insertion sort with respect to a boolean order (models SQL `ORDER BY`). -/
def sortBy {α : Type} (le : α → α → Bool) : List α → List α
  | [] => []
  | a :: l => insSorted le a (sortBy le l)

/-- `_insert_session`: `INSERT OR REPLACE INTO sessions` — any existing row
with the same id is replaced by the fresh row. -/
def insertSessionRow (db : DB) (row : DBSessionRow) : DB :=
  { db with sessions := db.sessions.filter (fun r => ¬ r.id = row.id) ++ [row] }

/-- `_set_session_status`: `UPDATE sessions SET status = ? WHERE id = ?`. -/
def setSessionStatus (db : DB) (sid : Nat) (status : String) : DB :=
  { db with sessions :=
      db.sessions.map (fun r => if r.id = sid then { r with status := status } else r) }

/-- `_insert_message`: append a row with the next autoincrement id and
return that id (`cur.lastrowid`). -/
def insertMessage (db : DB) (sid : Nat) (role : String) (content : String)
    (now : Nat) : DB × Nat :=
  ({ db with
      messages := db.messages ++
        [{ id := db.nextMessageId, sessionId := sid, role := role,
           content := content, createdAt := now }],
      nextMessageId := db.nextMessageId + 1 },
   db.nextMessageId)

/-- A sequence of `_insert_message` calls for one session, collecting the
returned ids in order (the shape of both the persist loop of
`_run_agent_for_session` and the round-trip scenario of the spec). -/
def appendMessages (db : DB) (sid : Nat) (entries : List HMsg) (now : Nat) :
    DB × List Nat :=
  match entries with
  | [] => (db, [])
  | m :: rest =>
    let r := insertMessage db sid m.role m.content now
    let r' := appendMessages r.1 sid rest now
    (r'.1, r.2 :: r'.2)

/-- `_get_messages`: the session's rows, `ORDER BY id ASC`. -/
def getMessages (db : DB) (sid : Nat) : List DBMessage :=
  sortBy (fun a b => a.id ≤ b.id) (db.messages.filter (fun m => m.sessionId = sid))

/-- `_get_sessions`: all session rows, `ORDER BY created_at DESC`. -/
def getSessions (db : DB) : List DBSessionRow :=
  sortBy (fun a b => b.createdAt ≤ a.createdAt) db.sessions

/-- `_delete_session`: delete the session's message rows and its session row. -/
def deleteSessionDb (db : DB) (sid : Nat) : DB :=
  { db with
      messages := db.messages.filter (fun m => ¬ m.sessionId = sid),
      sessions := db.sessions.filter (fun r => ¬ r.id = sid) }

/-- The persist step of `_run_agent_for_session` after a successful
`sampling_loop` return: `if updated_messages and len(updated_messages) >
len(messages_before)`, insert every entry past the snapshot, in order. -/
def persistNew (db : DB) (sid : Nat) (snap : Nat) (updated : List HMsg)
    (now : Nat) : DB :=
  if ¬ updated = [] ∧ snap < updated.length then
    (appendMessages db sid (List.drop snap updated) now).1
  else db

/-- Specification-side description of the rows the coordinator appends: the
given turns, with consecutive ids starting at `start`.  Used only to state
theorems; compare with `appendMessages`, the source-side fold. -/
def newRows (start : Nat) (sid : Nat) (ms : List HMsg) (now : Nat) :
    List DBMessage :=
  match ms with
  | [] => []
  | m :: rest =>
    { id := start, sessionId := sid, role := m.role, content := m.content,
      createdAt := now } :: newRows (start + 1) sid rest now

/-- Well-formedness of the database: every message id is below the
autoincrement counter and the rows are strictly ordered by id. -/
def WF (db : DB) : Prop :=
  (∀ m ∈ db.messages, m.id < db.nextMessageId) ∧
  db.messages.Pairwise (fun a b => a.id < b.id)

/-- `_read_api_key_from_storage`: prefer the non-blank contents of the
well-known key file (`fileVal = none` models a missing or unreadable file),
falling back to the environment variable. -/
def readApiKeyFromStorage (fileVal : Option String) (envVal : String) : String :=
  match fileVal with
  | some v => if ¬ v.trim = "" then v.trim else envVal
  | none => envVal

/-- The `SessionState` built by `create_session`. -/
def sessionStateOf (req : SessionConfig) (sid : Nat) (apiKey : String) :
    SessionState :=
  { id := sid, provider := req.provider, model := req.model,
    toolVersion := req.toolVersion,
    systemPromptSuffix := req.systemPromptSuffix,
    onlyNMostRecentImages := req.onlyNMostRecentImages,
    outputTokens := req.outputTokens,
    thinkingEnabled := req.thinkingEnabled,
    thinkingBudget := req.thinkingBudget,
    tokenEfficientToolsBeta := req.tokenEfficientToolsBeta,
    apiKey := apiKey, messages := [], isRunning := false }

/-- The row `_insert_session` writes: status `idle`, `created_at` from its
own `datetime.utcnow()` read `t`. -/
def sessionRowOf (req : SessionConfig) (sid : Nat) (t : Nat) : DBSessionRow :=
  { id := sid, createdAt := t, provider := req.provider, model := req.model,
    toolVersion := req.toolVersion,
    systemPromptSuffix := req.systemPromptSuffix,
    onlyNMostRecentImages := req.onlyNMostRecentImages,
    outputTokens := req.outputTokens,
    thinkingEnabled := req.thinkingEnabled,
    thinkingBudget := req.thinkingBudget,
    tokenEfficientToolsBeta := req.tokenEfficientToolsBeta,
    status := "idle" }

/-- The descriptor `create_session` returns: status `idle`, `created_at`
from a fresh `datetime.utcnow()` read `t`. -/
def responseOf (req : SessionConfig) (sid : Nat) (t : Nat) : SessionResponse :=
  { id := sid, createdAt := t, status := "idle", provider := req.provider,
    model := req.model, toolVersion := req.toolVersion }

/-- `create_session`: the identifier comes from the clock read `t1`
(`strftime` of the microsecond tick, modelled by the tick), the credential
is resolved once, a missing Anthropic credential raises 400 before any
state is touched; otherwise the registry entry, the subscriber-set entry
and the durable row (clock read `t2`) are created and the descriptor
(clock read `t3`) returned. -/
def createSession (S : ServerState) (req : SessionConfig) (apiKey : String)
    (t1 t2 t3 : Nat) : ServerState × Except Nat SessionResponse :=
  let sessionId := t1
  if req.provider = APIProvider.anthropic ∧ apiKey = "" then
    (S, Except.error 400)
  else
    ({ S with
        sessions := aset S.sessions sessionId (sessionStateOf req sessionId apiKey),
        clients := ensureClients S.clients sessionId,
        db := insertSessionRow S.db (sessionRowOf req sessionId t2) },
     Except.ok (responseOf req sessionId t3))

/-- `delete_session`: pop the in-memory entry, delete the durable rows,
answer `deleted` regardless of prior existence. -/
def deleteSessionRoute (S : ServerState) (sid : Nat) : ServerState × String :=
  ({ S with sessions := popSession S.sessions sid, db := deleteSessionDb S.db sid },
   "deleted")

/-- `get_session_messages`: 404 when the id is not in the in-memory
registry, otherwise the ordered durable messages. -/
def getSessionMessagesRoute (S : ServerState) (sid : Nat) :
    Except Nat (List DBMessage) :=
  match alookup S.sessions sid with
  | none => Except.error 404
  | some _ => Except.ok (getMessages S.db sid)

/-- `list_sessions`. -/
def listSessionsRoute (S : ServerState) : List DBSessionRow :=
  getSessions S.db

/-- `create_session` as a step of the interleaving semantics: the handler
runs in one segment (its only await is the store write); the id and both
timestamps come from the current tick. -/
def applyCreate (S : ServerState) (sid : Nat) (cfg : SessionConfig)
    (key : String) : ServerState :=
  { (createSession S cfg key sid S.clock S.clock).1 with clock := S.clock + 1 }

/-- First segment of `post_message`: after the 404 check, append the user
turn to the in-memory history and suspend on the durable insert. -/
def applyPostStart (S : ServerState) (sid : Nat) (text : String) : ServerState :=
  match alookup S.sessions sid with
  | some st =>
    { S with
        sessions := aset S.sessions sid
          { st with messages := st.messages ++ [{ role := "user", content := text }] },
        tasks := S.tasks ++ [Task.postInsert sid text] }
  | none => S

/-- Second segment of `post_message`: the `_insert_message` thread commits
the user turn. -/
def applyPostInsert (S : ServerState) (l₁ l₂ : List Task) (sid : Nat)
    (text : String) : ServerState :=
  { S with
      db := (insertMessage S.db sid "user" text S.clock).1,
      clock := S.clock + 1,
      tasks := l₁ ++ l₂ ++ [Task.postCheck sid] }

/-- Third segment of `post_message`: `if not session.is_running:
background.add_task(_run_agent_for_session, session)`. -/
def applyPostCheck (S : ServerState) (l₁ l₂ : List Task) (sid : Nat) :
    ServerState :=
  match alookup S.sessions sid with
  | some st =>
    if st.isRunning then { S with tasks := l₁ ++ l₂ }
    else { S with tasks := l₁ ++ l₂ ++ [Task.runPending sid] }
  | none => { S with tasks := l₁ ++ l₂ }

/-- The guard segment of `_run_agent_for_session`: check `is_running` and
return, or atomically flip it, mirror `running` into the store, snapshot
the history length and suspend on `sampling_loop`. -/
def applyRunGuard (S : ServerState) (l₁ l₂ : List Task) (sid : Nat) :
    ServerState :=
  match alookup S.sessions sid with
  | some st =>
    if st.isRunning then { S with tasks := l₁ ++ l₂ }
    else
      { S with
          sessions := aset S.sessions sid { st with isRunning := true },
          db := setSessionStatus S.db sid "running",
          tasks := l₁ ++ l₂ ++ [Task.runAwait sid st.messages.length] }
  | none => { S with tasks := l₁ ++ l₂ }

/-- A `_broadcast` of one event to every current subscriber of the session
(the fire-and-forget callback sends and the `done`/`error` sends). -/
def applyBroadcast (S : ServerState) (sid : Nat) (e : Event) : ServerState :=
  { S with delivered := deliverAll S.delivered (clientsOf S.clients sid) e }

/-- Successful `sampling_loop` return: persist every returned entry past
the snapshot, replace the in-memory history with the returned one,
broadcast `done`, leaving the `finally` block pending. -/
def applyRunSuccess (S : ServerState) (l₁ l₂ : List Task) (sid snap : Nat)
    (updated : List HMsg) : ServerState :=
  let S₁ := { S with db := persistNew S.db sid snap updated S.clock,
                     clock := S.clock + 1 }
  let S₂ :=
    match alookup S₁.sessions sid with
    | some st => { S₁ with sessions := aset S₁.sessions sid { st with messages := updated } }
    | none => S₁
  let S₃ := applyBroadcast S₂ sid Event.done
  { S₃ with tasks := l₁ ++ l₂ ++ [Task.runFinalize sid] }

/-- `sampling_loop` raised: broadcast a single `error` event; neither the
store nor the in-memory history is touched; the `finally` block is pending. -/
def applyRunFail (S : ServerState) (l₁ l₂ : List Task) (sid : Nat)
    (msg : String) : ServerState :=
  let S₁ := applyBroadcast S sid (Event.error msg)
  { S₁ with tasks := l₁ ++ l₂ ++ [Task.runFinalize sid] }

/-- The `finally` block: flip `is_running` off and mirror `idle` into the
store. -/
def applyRunFinal (S : ServerState) (l₁ l₂ : List Task) (sid : Nat) :
    ServerState :=
  let S₁ :=
    match alookup S.sessions sid with
    | some st => { S with sessions := aset S.sessions sid { st with isRunning := false } }
    | none => S
  { S₁ with db := setSessionStatus S₁.db sid "idle", tasks := l₁ ++ l₂ }

/-- First segment of `websocket_endpoint`: after the accept and the
registry check, register the socket in the subscriber set, then suspend on
the `_get_messages` thread. -/
def applyWsConnect (S : ServerState) (sid ws : Nat) : ServerState :=
  { S with clients := addClient S.clients sid ws,
           tasks := S.tasks ++ [Task.wsHist sid ws] }

/-- Second segment of `websocket_endpoint`: read the persisted messages
and send the single `history` frame to this socket. -/
def applyWsHist (S : ServerState) (l₁ l₂ : List Task) (sid ws : Nat) :
    ServerState :=
  { S with delivered := deliverOne S.delivered ws (Event.history (getMessages S.db sid)),
           tasks := l₁ ++ l₂ }

/-- Subscriber disconnect: the `finally` discard. -/
def applyWsDisconnect (S : ServerState) (sid ws : Nat) : ServerState :=
  { S with clients := removeClient S.clients sid ws }

/-- A websocket handle not yet used anywhere (fresh connection). -/
def wsFresh (S : ServerState) (ws : Nat) : Prop :=
  (∀ p ∈ S.clients, ws ∉ p.2) ∧
  (∀ p ∈ S.delivered, ¬ p.1 = ws) ∧
  S.tasks.countP (Task.isWsFor ws) = 0

/-- The interleaving semantics.  A step is either the arrival of an
external request (running the handler's first atomic segment) or the
resumption of a pending continuation; the scheduler is free, so every
interleaving of the asyncio event loop is covered.  Session identifiers
are assumed unused at creation (the spec's identity-uniqueness guarantee;
the same-tick collision is analysed separately on `createSession`). -/
inductive Step : ServerState → ServerState → Prop where
  | create (S : ServerState) (sid : Nat) (cfg : SessionConfig) (key : String)
      (hfresh : alookup S.sessions sid = none)
      (hok : ¬ (cfg.provider = APIProvider.anthropic ∧ key = "")) :
      Step S (applyCreate S sid cfg key)
  | postStart (S : ServerState) (sid : Nat) (text : String) (st : SessionState)
      (h : alookup S.sessions sid = some st) :
      Step S (applyPostStart S sid text)
  | postInsert (S : ServerState) (l₁ l₂ : List Task) (sid : Nat) (text : String)
      (h : S.tasks = l₁ ++ Task.postInsert sid text :: l₂) :
      Step S (applyPostInsert S l₁ l₂ sid text)
  | postCheck (S : ServerState) (l₁ l₂ : List Task) (sid : Nat)
      (h : S.tasks = l₁ ++ Task.postCheck sid :: l₂) :
      Step S (applyPostCheck S l₁ l₂ sid)
  | runGuard (S : ServerState) (l₁ l₂ : List Task) (sid : Nat)
      (h : S.tasks = l₁ ++ Task.runPending sid :: l₂) :
      Step S (applyRunGuard S l₁ l₂ sid)
  | callback (S : ServerState) (sid snap : Nat) (e : Event)
      (hrun : Task.runAwait sid snap ∈ S.tasks)
      (hcb : e.isCallback = true) :
      Step S (applyBroadcast S sid e)
  | runSuccess (S : ServerState) (l₁ l₂ : List Task) (sid snap : Nat)
      (updated : List HMsg)
      (h : S.tasks = l₁ ++ Task.runAwait sid snap :: l₂) :
      Step S (applyRunSuccess S l₁ l₂ sid snap updated)
  | runFail (S : ServerState) (l₁ l₂ : List Task) (sid snap : Nat) (msg : String)
      (h : S.tasks = l₁ ++ Task.runAwait sid snap :: l₂) :
      Step S (applyRunFail S l₁ l₂ sid msg)
  | runFinal (S : ServerState) (l₁ l₂ : List Task) (sid : Nat)
      (h : S.tasks = l₁ ++ Task.runFinalize sid :: l₂) :
      Step S (applyRunFinal S l₁ l₂ sid)
  | wsConnect (S : ServerState) (sid ws : Nat) (st : SessionState)
      (h : alookup S.sessions sid = some st)
      (hfresh : wsFresh S ws) :
      Step S (applyWsConnect S sid ws)
  | wsHist (S : ServerState) (l₁ l₂ : List Task) (sid ws : Nat)
      (h : S.tasks = l₁ ++ Task.wsHist sid ws :: l₂) :
      Step S (applyWsHist S l₁ l₂ sid ws)
  | wsDisconnect (S : ServerState) (sid ws : Nat) :
      Step S (applyWsDisconnect S sid ws)

/-- The empty server right after startup. -/
def initState : ServerState :=
  { sessions := [], db := { sessions := [], messages := [], nextMessageId := 1 },
    clients := [], delivered := [], tasks := [], clock := 0 }

/-- Reachability from startup. -/
inductive Reachable : ServerState → Prop where
  | init : Reachable initState
  | step {S S' : ServerState} : Reachable S → Step S S' → Reachable S'

/-- How many agent runs are in progress for `sid`. -/
def runCount (ts : List Task) (sid : Nat) : Nat :=
  ts.countP (Task.isActiveRun sid)

/-- How many `history` frames a received stream contains. -/
def histCount (l : List Event) : Nat :=
  l.countP Event.isHistory

/-- How many pending history sends exist for handle `ws`. -/
def pendingWs (S : ServerState) (ws : Nat) : Nat :=
  S.tasks.countP (Task.isWsFor ws)

/-- The global invariant: per session at most one run is active and the
run flag is set exactly while one is; sessions absent from the registry
have no active run; every subscriber receives at most one `history` frame
(counting the pending send); and the database is well-formed. -/
def Inv (S : ServerState) : Prop :=
  (∀ sid, runCount S.tasks sid ≤ 1) ∧
  (∀ sid st, alookup S.sessions sid = some st →
      (st.isRunning = true ↔ runCount S.tasks sid = 1)) ∧
  (∀ sid, alookup S.sessions sid = none → runCount S.tasks sid = 0) ∧
  (∀ ws, histCount (deliveredTo S.delivered ws) + pendingWs S ws ≤ 1) ∧
  WF S.db

/-- The configuration used by the concrete example traces. -/
def exCfg : SessionConfig :=
  { provider := APIProvider.anthropic, model := "m1",
    toolVersion := "computer_use_20250124", systemPromptSuffix := "",
    onlyNMostRecentImages := some 3, outputTokens := 4096,
    thinkingEnabled := false, thinkingBudget := none,
    tokenEfficientToolsBeta := false }

/-- Example trace: a session created at tick 0 (id 1 chosen fresh). -/
def exSt1 : ServerState := applyCreate initState 1 exCfg "k"

/-- Example trace: `post_message` appended the user turn in memory. -/
def exSt2 : ServerState := applyPostStart exSt1 1 "hi"

/-- Example trace: the user turn committed durably. -/
def exSt3 : ServerState := applyPostInsert exSt2 [] [] 1 "hi"

/-- Example trace: the idle check queued the background run. -/
def exSt4 : ServerState := applyPostCheck exSt3 [] [] 1

/-- Example trace: the run passed its guard; the session is running. -/
def exSt5 : ServerState := applyRunGuard exSt4 [] [] 1

/-- Example trace: subscriber 7 connected while the run is in progress;
its history read is still pending. -/
def exSt6 : ServerState := applyWsConnect exSt5 1 7

/-- Example trace: a callback broadcast fired between subscriber 7's
registration and its history send. -/
def exSt7 : ServerState := applyBroadcast exSt6 1 (Event.assistantBlock "b")

/-- Example trace: subscriber 7's history frame finally sent. -/
def exSt8 : ServerState := applyWsHist exSt7 [Task.runAwait 1 1] [] 1 7

/-- A configuration choosing a non-Anthropic provider. -/
def bedrockCfg : SessionConfig := { exCfg with provider := APIProvider.bedrock }

/-! Association-list lemmas. -/

theorem alookup_aadj {α : Type} (l : List (Nat × α)) (k : Nat) (f : α → α)
    (d : α) (k' : Nat) :
    alookup (aadj l k f d) k' =
      if k' = k then some (f ((alookup l k).getD d)) else alookup l k' := by
  induction l with
  | nil =>
    by_cases h : k' = k
    · subst h
      simp [aadj, alookup]
    · have h2 : ¬ k = k' := fun hc => h hc.symm
      simp [aadj, alookup, h, h2]
  | cons p rest ih =>
    by_cases hp : p.1 = k
    · by_cases h : k' = k
      · subst h
        simp [aadj, alookup, hp]
      · have hp' : ¬ p.1 = k' := fun hc => h (hc.symm.trans hp)
        have h3 : ¬ k = k' := fun hc => h hc.symm
        simp [aadj, alookup, hp, hp', h, h3]
    · by_cases h : k' = k
      · subst h
        simp [aadj, alookup, hp, ih]
      · by_cases hq : p.1 = k'
        · simp [aadj, alookup, hp, hq, h]
        · simp [aadj, alookup, hp, hq, h, ih]

theorem alookup_aset {α : Type} (l : List (Nat × α)) (k : Nat) (v : α)
    (k' : Nat) :
    alookup (aset l k v) k' = if k' = k then some v else alookup l k' := by
  simp [aset, alookup_aadj]

theorem alookup_filter_self {α : Type} (l : List (Nat × α)) (k : Nat)
    (p : Nat × α → Bool) (hp : ∀ q : Nat × α, q.1 = k → p q = false) :
    alookup (l.filter p) k = none := by
  induction l with
  | nil => simp [alookup]
  | cons q rest ih =>
    by_cases hq : q.1 = k
    · simpa [List.filter, hp q hq] using ih
    · by_cases hpq : p q
      · simpa [List.filter, hpq, alookup, hq] using ih
      · simpa [List.filter, hpq] using ih

theorem alookup_popSession {α : Type} (l : List (Nat × α)) (k : Nat) :
    alookup (popSession l k) k = none := by
  refine alookup_filter_self l k _ ?_
  intro q hq
  simp [hq]

/-! Delivery lemmas. -/

theorem deliveredTo_deliverOne (d : List (Nat × List Event)) (ws : Nat)
    (e : Event) (ws' : Nat) :
    deliveredTo (deliverOne d ws e) ws' =
      if ws' = ws then deliveredTo d ws' ++ [e] else deliveredTo d ws' := by
  by_cases h : ws' = ws
  · subst h
    simp only [deliveredTo, deliverOne, alookup_aadj, if_pos rfl]
    cases alookup d ws' <;> simp
  · simp [deliveredTo, deliverOne, alookup_aadj, h]

theorem deliveredTo_deliverAll_notMem (targets : List Nat)
    (d : List (Nat × List Event)) (e : Event) (ws : Nat)
    (h : ws ∉ targets) :
    deliveredTo (deliverAll d targets e) ws = deliveredTo d ws := by
  induction targets generalizing d with
  | nil => rfl
  | cons t rest ih =>
    have hne : ¬ ws = t := fun hc => h (by simp [hc])
    have hrest : ws ∉ rest := fun hc => h (by simp [hc])
    calc deliveredTo (deliverAll (deliverOne d t e) rest e) ws
        = deliveredTo (deliverOne d t e) ws := ih _ hrest
      _ = deliveredTo d ws := by rw [deliveredTo_deliverOne, if_neg hne]

theorem deliveredTo_deliverAll_mem (targets : List Nat)
    (d : List (Nat × List Event)) (e : Event) (ws : Nat)
    (hnd : targets.Nodup) (h : ws ∈ targets) :
    deliveredTo (deliverAll d targets e) ws = deliveredTo d ws ++ [e] := by
  induction targets generalizing d with
  | nil => cases h
  | cons t rest ih =>
    rcases List.mem_cons.mp h with h1 | h2
    · subst h1
      have hnot : ws ∉ rest := (List.nodup_cons.mp hnd).1
      calc deliveredTo (deliverAll (deliverOne d ws e) rest e) ws
          = deliveredTo (deliverOne d ws e) ws :=
            deliveredTo_deliverAll_notMem _ _ _ _ hnot
        _ = deliveredTo d ws ++ [e] := by rw [deliveredTo_deliverOne, if_pos rfl]
    · have hne : ¬ ws = t := by
        intro hc
        exact (List.nodup_cons.mp hnd).1 (hc ▸ h2)
      calc deliveredTo (deliverAll (deliverOne d t e) rest e) ws
          = deliveredTo (deliverOne d t e) ws ++ [e] :=
            ih _ (List.nodup_cons.mp hnd).2 h2
        _ = deliveredTo d ws ++ [e] := by rw [deliveredTo_deliverOne, if_neg hne]

theorem histCount_append_single (l : List Event) (e : Event)
    (he : e.isHistory = false) : histCount (l ++ [e]) = histCount l := by
  simp [histCount, List.countP_append, List.countP_cons, he]

theorem histCount_deliverAll (targets : List Nat)
    (d : List (Nat × List Event)) (e : Event) (ws : Nat)
    (he : e.isHistory = false) :
    histCount (deliveredTo (deliverAll d targets e) ws) =
      histCount (deliveredTo d ws) := by
  induction targets generalizing d with
  | nil => rfl
  | cons t rest ih =>
    calc histCount (deliveredTo (deliverAll (deliverOne d t e) rest e) ws)
        = histCount (deliveredTo (deliverOne d t e) ws) := ih _
      _ = histCount (deliveredTo d ws) := by
          rw [deliveredTo_deliverOne]
          by_cases h : ws = t
          · rw [if_pos h, histCount_append_single _ _ he]
          · rw [if_neg h]

/-! `sendLoop` and `broadcastFinish` lemmas. -/

theorem sendLoop_snd (ok : Nat → Bool) (e : Event) (ts : List Nat)
    (d : List (Nat × List Event)) :
    (sendLoop ok e ts d).2 = ts.filter (fun w => ! ok w) := by
  induction ts generalizing d with
  | nil => rfl
  | cons t rest ih =>
    by_cases h : ok t <;> simp [sendLoop, h, ih]

theorem sendLoop_deliveredTo (ok : Nat → Bool) (e : Event) (ts : List Nat)
    (d : List (Nat × List Event)) (ws : Nat) (hnd : ts.Nodup) :
    deliveredTo (sendLoop ok e ts d).1 ws =
      if ws ∈ ts ∧ ok ws = true then deliveredTo d ws ++ [e]
      else deliveredTo d ws := by
  induction ts generalizing d with
  | nil => simp [sendLoop]
  | cons t rest ih =>
    have hnr := (List.nodup_cons.mp hnd).2
    have hnt := (List.nodup_cons.mp hnd).1
    by_cases hok : ok t
    · have : (sendLoop ok e (t :: rest) d) = sendLoop ok e rest (deliverOne d t e) := by
        simp [sendLoop, hok]
      rw [this, ih _ hnr]
      by_cases hmem : ws ∈ rest
      · have hne : ¬ ws = t := fun hc => hnt (hc ▸ hmem)
        by_cases hws : ok ws
        · simp [hmem, hws, deliveredTo_deliverOne, hne]
        · simp [hmem, hws, deliveredTo_deliverOne, hne]
      · by_cases heq : ws = t
        · subst heq
          simp [hmem, hok, deliveredTo_deliverOne]
        · simp [hmem, heq, deliveredTo_deliverOne]
    · have : (sendLoop ok e (t :: rest) d).1 = (sendLoop ok e rest d).1 := by
        simp [sendLoop, hok]
      rw [this, ih _ hnr]
      by_cases hmem : ws ∈ rest
      · simp [hmem]
      · by_cases heq : ws = t
        · subst heq
          simp [hmem, hok]
        · simp [hmem, heq]

theorem mem_broadcastFinish (live dead : List Nat) (ws : Nat) :
    ws ∈ broadcastFinish live dead ↔ ws ∈ live ∧ ws ∉ dead := by
  induction dead generalizing live with
  | nil => simp [broadcastFinish]
  | cons x xs ih =>
    have : broadcastFinish live (x :: xs) =
        broadcastFinish (live.filter (fun y => ¬ y = x)) xs := rfl
    rw [this, ih]
    constructor
    · rintro ⟨h1, h2⟩
      have h1' := List.mem_filter.mp h1
      refine ⟨h1'.1, ?_⟩
      intro hmem
      rcases List.mem_cons.mp hmem with rfl | hx
      · have := h1'.2
        simp at this
      · exact h2 hx
    · rintro ⟨h1, h2⟩
      have hne : ¬ ws = x := fun hc => h2 (List.mem_cons.mpr (Or.inl hc))
      refine ⟨List.mem_filter.mpr ⟨h1, by simp [hne]⟩, ?_⟩
      exact fun hx => h2 (List.mem_cons.mpr (Or.inr hx))

/-! Insertion-sort lemmas (the `ORDER BY` model). -/

theorem mem_insSorted {α : Type} (le : α → α → Bool) (a x : α) (l : List α) :
    x ∈ insSorted le a l ↔ x = a ∨ x ∈ l := by
  induction l with
  | nil => simp [insSorted]
  | cons b rest ih =>
    by_cases h : le a b
    · simp [insSorted, h]
    · simp [insSorted, h, ih]
      tauto

theorem mem_sortBy {α : Type} (le : α → α → Bool) (x : α) (l : List α) :
    x ∈ sortBy le l ↔ x ∈ l := by
  induction l with
  | nil => simp [sortBy]
  | cons a rest ih => simp [sortBy, mem_insSorted, ih]

theorem sortBy_eq_self {α : Type} (le : α → α → Bool) (l : List α)
    (h : l.Chain' (fun a b => le a b = true)) : sortBy le l = l := by
  induction l with
  | nil => rfl
  | cons a rest ih =>
    have hrest := ih (List.Chain'.tail h)
    cases rest with
    | nil => rfl
    | cons b rest' =>
      have hab : le a b = true := (List.chain'_cons.mp h).1
      simp [sortBy] at hrest ⊢
      rw [hrest, insSorted, if_pos hab]

/-! Database lemmas. -/

theorem newRows_length (start sid : Nat) (ms : List HMsg) (now : Nat) :
    (newRows start sid ms now).length = ms.length := by
  induction ms generalizing start with
  | nil => rfl
  | cons m rest ih => simp [newRows, ih]

theorem newRows_sessionId (start sid : Nat) (ms : List HMsg) (now : Nat) :
    ∀ r ∈ newRows start sid ms now, r.sessionId = sid := by
  induction ms generalizing start with
  | nil => intro r h; cases h
  | cons m rest ih =>
    intro r h
    rcases List.mem_cons.mp h with rfl | h2
    · rfl
    · exact ih _ r h2

theorem newRows_id_bounds (start sid : Nat) (ms : List HMsg) (now : Nat) :
    ∀ r ∈ newRows start sid ms now, start ≤ r.id ∧ r.id < start + ms.length := by
  induction ms generalizing start with
  | nil => intro r h; cases h
  | cons m rest ih =>
    intro r h
    rcases List.mem_cons.mp h with rfl | h2
    · constructor
      · exact Nat.le_refl _
      · simp
    · have := ih (start + 1) r h2
      constructor
      · exact Nat.le_of_succ_le this.1
      · have h3 := this.2
        simp only [List.length_cons]
        omega

theorem newRows_pairwise (start sid : Nat) (ms : List HMsg) (now : Nat) :
    (newRows start sid ms now).Pairwise (fun a b => a.id < b.id) := by
  induction ms generalizing start with
  | nil => exact List.Pairwise.nil
  | cons m rest ih =>
    refine List.pairwise_cons.mpr ⟨?_, ih (start + 1)⟩
    intro r hr
    have := (newRows_id_bounds (start + 1) sid rest now r hr).1
    show start < r.id
    omega

theorem newRows_payload (start sid : Nat) (ms : List HMsg) (now : Nat) :
    (newRows start sid ms now).map (fun r => (r.role, r.content)) =
      ms.map (fun m => (m.role, m.content)) := by
  induction ms generalizing start with
  | nil => rfl
  | cons m rest ih => simp [newRows, ih]

theorem appendMessages_messages (db : DB) (sid : Nat) (ms : List HMsg)
    (now : Nat) :
    (appendMessages db sid ms now).1.messages =
      db.messages ++ newRows db.nextMessageId sid ms now := by
  induction ms generalizing db with
  | nil => simp [appendMessages, newRows]
  | cons m rest ih =>
    simp only [appendMessages]
    rw [ih]
    simp [insertMessage, newRows]

theorem appendMessages_nextId (db : DB) (sid : Nat) (ms : List HMsg)
    (now : Nat) :
    (appendMessages db sid ms now).1.nextMessageId =
      db.nextMessageId + ms.length := by
  induction ms generalizing db with
  | nil => simp [appendMessages]
  | cons m rest ih =>
    simp only [appendMessages]
    rw [ih]
    simp [insertMessage]
    omega

theorem appendMessages_sessions (db : DB) (sid : Nat) (ms : List HMsg)
    (now : Nat) :
    (appendMessages db sid ms now).1.sessions = db.sessions := by
  induction ms generalizing db with
  | nil => rfl
  | cons m rest ih =>
    simp only [appendMessages]
    rw [ih]
    simp [insertMessage]

theorem appendMessages_ids (db : DB) (sid : Nat) (ms : List HMsg) (now : Nat) :
    (appendMessages db sid ms now).2 =
      (newRows db.nextMessageId sid ms now).map (fun r => r.id) := by
  induction ms generalizing db with
  | nil => rfl
  | cons m rest ih =>
    simp only [appendMessages, newRows, List.map_cons]
    rw [ih]
    simp [insertMessage]

theorem wf_appendMessages {db : DB} (sid : Nat) (ms : List HMsg) (now : Nat)
    (h : WF db) : WF (appendMessages db sid ms now).1 := by
  constructor
  · intro m hm
    rw [appendMessages_messages] at hm
    rw [appendMessages_nextId]
    rcases List.mem_append.mp hm with h1 | h2
    · have := h.1 m h1
      omega
    · exact (newRows_id_bounds _ sid ms now m h2).2
  · rw [appendMessages_messages]
    refine List.pairwise_append.mpr ⟨h.2, newRows_pairwise _ _ _ _, ?_⟩
    intro a ha b hb
    have h1 := h.1 a ha
    have h2 := (newRows_id_bounds _ sid ms now b hb).1
    omega

theorem wf_insertMessage {db : DB} (sid : Nat) (role content : String)
    (now : Nat) (h : WF db) : WF (insertMessage db sid role content now).1 := by
  have := @wf_appendMessages db sid [{ role := role, content := content }] now h
  simpa [appendMessages] using this

theorem getMessages_eq_filter {db : DB} (h : WF db) (sid : Nat) :
    getMessages db sid = db.messages.filter (fun m => m.sessionId = sid) := by
  unfold getMessages
  apply sortBy_eq_self
  have hpw : (db.messages.filter (fun m => m.sessionId = sid)).Pairwise
      (fun a b => a.id < b.id) :=
    h.2.sublist (List.filter_sublist _)
  have hch := hpw.chain'
  exact hch.imp (fun {a b} hab => by simp [Nat.le_of_lt hab])

theorem getMessages_appendMessages {db : DB} (h : WF db) (sid : Nat)
    (ms : List HMsg) (now : Nat) :
    getMessages (appendMessages db sid ms now).1 sid =
      getMessages db sid ++ newRows db.nextMessageId sid ms now := by
  rw [getMessages_eq_filter (wf_appendMessages sid ms now h) sid,
      getMessages_eq_filter h sid]
  rw [appendMessages_messages, List.filter_append]
  congr 1
  apply List.filter_eq_self.mpr
  intro r hr
  simp [newRows_sessionId _ sid ms now r hr]

theorem setSessionStatus_status (db : DB) (sid : Nat) (s : String) :
    ∀ row ∈ (setSessionStatus db sid s).sessions, row.id = sid →
      row.status = s := by
  intro row hrow hid
  rcases List.mem_map.mp hrow with ⟨orig, horig, heq⟩
  by_cases h : orig.id = sid
  · rw [if_pos h] at heq
    rw [← heq]
  · rw [if_neg h] at heq
    rw [← heq] at hid
    exact absurd hid h

theorem wf_setSessionStatus {db : DB} (sid : Nat) (s : String) (h : WF db) :
    WF (setSessionStatus db sid s) := h

theorem wf_insertSessionRow {db : DB} (row : DBSessionRow) (h : WF db) :
    WF (insertSessionRow db row) := h

theorem wf_persistNew {db : DB} (sid snap : Nat) (updated : List HMsg)
    (now : Nat) (h : WF db) : WF (persistNew db sid snap updated now) := by
  unfold persistNew
  by_cases hc : ¬ updated = [] ∧ snap < updated.length
  · rw [if_pos hc]
    exact wf_appendMessages _ _ _ h
  · rw [if_neg hc]
    exact h

/-! Invariant preservation. -/

theorem alookup_eq_none_of_forall {α : Type} (l : List (Nat × α)) (k : Nat)
    (h : ∀ p ∈ l, ¬ p.1 = k) : alookup l k = none := by
  induction l with
  | nil => rfl
  | cons p rest ih =>
    have hp := h p (List.mem_cons_self _ _)
    simp only [alookup, if_neg hp]
    exact ih (fun q hq => h q (List.mem_cons_of_mem _ hq))

theorem isHistory_of_isCallback {e : Event} (h : e.isCallback = true) :
    e.isHistory = false := by
  cases e <;> simp_all [Event.isCallback, Event.isHistory]

theorem countP_middle (p : Task → Bool) (l₁ l₂ : List Task) (t : Task) :
    (l₁ ++ t :: l₂).countP p =
      l₁.countP p + l₂.countP p + (if p t then 1 else 0) := by
  rw [List.countP_append, List.countP_cons]
  omega

theorem countP_snoc (p : Task → Bool) (ts : List Task) (t : Task) :
    (ts ++ [t]).countP p = ts.countP p + (if p t then 1 else 0) := by
  rw [List.countP_append, List.countP_cons, List.countP_nil]
  omega

theorem inv_step {S S' : ServerState} (hInv : Inv S) (hstep : Step S S') :
    Inv S' := by
  obtain ⟨hRun1, hRun2, hRun3, hHist, hWF⟩ := hInv
  cases hstep with
  | create sid cfg key hfresh hok =>
    have hzero : runCount S.tasks sid = 0 := hRun3 sid hfresh
    simp only [applyCreate, createSession]
    rw [if_neg hok]
    refine ⟨?_, ?_, ?_, ?_, ?_⟩ <;> dsimp only
    · exact hRun1
    · intro sid' st' hl'
      rw [alookup_aset] at hl'
      by_cases hs : sid' = sid
      · rw [if_pos hs] at hl'
        cases hl'
        subst hs
        constructor
        · intro hr
          cases hr
        · intro hc
          rw [hzero] at hc
          cases hc
      · rw [if_neg hs] at hl'
        exact hRun2 sid' st' hl'
    · intro sid' hl'
      rw [alookup_aset] at hl'
      by_cases hs : sid' = sid
      · rw [if_pos hs] at hl'
        cases hl'
      · rw [if_neg hs] at hl'
        exact hRun3 sid' hl'
    · exact hHist
    · exact wf_insertSessionRow _ hWF
  | postStart sid text st h =>
    have hcount : ∀ s, runCount (S.tasks ++ [Task.postInsert sid text]) s =
        runCount S.tasks s := by
      intro s
      unfold runCount
      rw [countP_snoc]
      simp [Task.isActiveRun]
    have hpend : ∀ w, (S.tasks ++ [Task.postInsert sid text]).countP
        (Task.isWsFor w) = S.tasks.countP (Task.isWsFor w) := by
      intro w
      rw [countP_snoc]
      simp [Task.isWsFor]
    simp only [applyPostStart, h]
    refine ⟨?_, ?_, ?_, ?_, ?_⟩ <;> dsimp only
    · intro s
      rw [hcount]
      exact hRun1 s
    · intro sid' st' hl'
      rw [alookup_aset] at hl'
      rw [hcount]
      by_cases hs : sid' = sid
      · rw [if_pos hs] at hl'
        cases hl'
        subst hs
        exact hRun2 sid' st h
      · rw [if_neg hs] at hl'
        exact hRun2 sid' st' hl'
    · intro sid' hl'
      rw [alookup_aset] at hl'
      rw [hcount]
      by_cases hs : sid' = sid
      · rw [if_pos hs] at hl'
        cases hl'
      · rw [if_neg hs] at hl'
        exact hRun3 sid' hl'
    · intro w
      have hx := hHist w
      unfold pendingWs at hx ⊢
      dsimp only
      rw [hpend w]
      exact hx
    · exact hWF
  | postInsert l₁ l₂ sid text h =>
    have hcount : ∀ s, runCount (l₁ ++ l₂ ++ [Task.postCheck sid]) s =
        runCount S.tasks s := by
      intro s
      unfold runCount
      rw [h, countP_snoc, List.countP_append, countP_middle]
      simp [Task.isActiveRun]
    have hpend : ∀ w, (l₁ ++ l₂ ++ [Task.postCheck sid]).countP
        (Task.isWsFor w) = S.tasks.countP (Task.isWsFor w) := by
      intro w
      rw [h, countP_snoc, List.countP_append, countP_middle]
      simp [Task.isWsFor]
    simp only [applyPostInsert]
    refine ⟨?_, ?_, ?_, ?_, ?_⟩ <;> dsimp only
    · intro s
      rw [hcount]
      exact hRun1 s
    · intro sid' st' hl'
      rw [hcount]
      exact hRun2 sid' st' hl'
    · intro sid' hl'
      rw [hcount]
      exact hRun3 sid' hl'
    · intro w
      have hx := hHist w
      unfold pendingWs at hx ⊢
      dsimp only
      rw [hpend w]
      exact hx
    · exact wf_insertMessage _ _ _ _ hWF
  | postCheck l₁ l₂ sid h =>
    have hmain : ∀ extra : List Task,
        (∀ s, (extra.countP (Task.isActiveRun s)) = 0) →
        (∀ w, (extra.countP (Task.isWsFor w)) = 0) →
        Inv { S with tasks := l₁ ++ l₂ ++ extra } := by
      intro extra hex hew
      have hcount : ∀ s, runCount (l₁ ++ l₂ ++ extra) s = runCount S.tasks s := by
        intro s
        unfold runCount
        rw [h, List.countP_append, List.countP_append, hex s, countP_middle]
        simp [Task.isActiveRun]
      have hpend : ∀ w, (l₁ ++ l₂ ++ extra).countP (Task.isWsFor w) =
          S.tasks.countP (Task.isWsFor w) := by
        intro w
        rw [h, List.countP_append, List.countP_append, hew w, countP_middle]
        simp [Task.isWsFor]
      refine ⟨?_, ?_, ?_, ?_, ?_⟩ <;> dsimp only
      · intro s
        rw [hcount]
        exact hRun1 s
      · intro sid' st' hl'
        rw [hcount]
        exact hRun2 sid' st' hl'
      · intro sid' hl'
        rw [hcount]
        exact hRun3 sid' hl'
      · intro w
        have hx := hHist w
        unfold pendingWs at hx ⊢
        dsimp only
        rw [hpend w]
        exact hx
      · exact hWF
    rcases hl : alookup S.sessions sid with _ | st
    · have := hmain [] (fun s => rfl) (fun w => rfl)
      simpa [applyPostCheck, hl] using this
    · by_cases hr : st.isRunning
      · have := hmain [] (fun s => rfl) (fun w => rfl)
        simpa [applyPostCheck, hl, hr] using this
      · have := hmain [Task.runPending sid]
          (fun s => by simp [List.countP_cons, Task.isActiveRun])
          (fun w => by simp [List.countP_cons, Task.isWsFor])
        simpa [applyPostCheck, hl, hr] using this
  | runGuard l₁ l₂ sid h =>
    have htriv : ∀ _ : Unit, Inv { S with tasks := l₁ ++ l₂ } := by
      intro _
      have hcount : ∀ s, runCount (l₁ ++ l₂) s = runCount S.tasks s := by
        intro s
        unfold runCount
        rw [h, List.countP_append, countP_middle]
        simp [Task.isActiveRun]
      have hpend : ∀ w, (l₁ ++ l₂).countP (Task.isWsFor w) =
          S.tasks.countP (Task.isWsFor w) := by
        intro w
        rw [h, List.countP_append, countP_middle]
        simp [Task.isWsFor]
      refine ⟨?_, ?_, ?_, ?_, ?_⟩ <;> dsimp only
      · intro s
        rw [hcount]
        exact hRun1 s
      · intro sid' st' hl'
        rw [hcount]
        exact hRun2 sid' st' hl'
      · intro sid' hl'
        rw [hcount]
        exact hRun3 sid' hl'
      · intro w
        have hx := hHist w
        unfold pendingWs at hx ⊢
        dsimp only
        rw [hpend w]
        exact hx
      · exact hWF
    rcases hl : alookup S.sessions sid with _ | st
    · have := htriv ()
      simpa [applyRunGuard, hl] using this
    · by_cases hr : st.isRunning
      · have := htriv ()
        simpa [applyRunGuard, hl, hr] using this
      · have hz : runCount S.tasks sid = 0 := by
          have hiff := hRun2 sid st hl
          have hne : ¬ runCount S.tasks sid = 1 := fun hc => hr (hiff.mpr hc)
          have hle := hRun1 sid
          omega
        have hsplit : runCount l₁ sid + runCount l₂ sid = 0 := by
          have heq : runCount S.tasks sid =
              runCount l₁ sid + runCount l₂ sid := by
            unfold runCount
            rw [h, countP_middle]
            simp [Task.isActiveRun]
          omega
        have hcount : ∀ s, ¬ s = sid →
            runCount (l₁ ++ l₂ ++ [Task.runAwait sid st.messages.length]) s =
              runCount S.tasks s := by
          intro s hs
          unfold runCount
          have hd : ¬ sid = s := fun hc => hs hc.symm
          rw [h, countP_snoc, List.countP_append, countP_middle]
          simp [Task.isActiveRun, hd]
        have hcsid :
            runCount (l₁ ++ l₂ ++ [Task.runAwait sid st.messages.length]) sid
              = 1 := by
          have heq :
              runCount (l₁ ++ l₂ ++ [Task.runAwait sid st.messages.length]) sid
                = runCount l₁ sid + runCount l₂ sid + 1 := by
            unfold runCount
            rw [countP_snoc, List.countP_append]
            simp [Task.isActiveRun]
          omega
        have hpend : ∀ w,
            (l₁ ++ l₂ ++ [Task.runAwait sid st.messages.length]).countP
              (Task.isWsFor w) = S.tasks.countP (Task.isWsFor w) := by
          intro w
          rw [h, countP_snoc, List.countP_append, countP_middle]
          simp [Task.isWsFor]
        have hgoal : Inv { S with
            sessions := aset S.sessions sid { st with isRunning := true },
            db := setSessionStatus S.db sid "running",
            tasks := l₁ ++ l₂ ++ [Task.runAwait sid st.messages.length] } := by
          refine ⟨?_, ?_, ?_, ?_, ?_⟩ <;> dsimp only
          · intro s
            by_cases hs : s = sid
            · subst hs
              rw [hcsid]
            · rw [hcount s hs]
              exact hRun1 s
          · intro sid' st' hl'
            rw [alookup_aset] at hl'
            by_cases hs : sid' = sid
            · rw [if_pos hs] at hl'
              cases hl'
              subst hs
              rw [hcsid]
              constructor
              · intro _
                rfl
              · intro _
                rfl
            · rw [if_neg hs] at hl'
              rw [hcount sid' hs]
              exact hRun2 sid' st' hl'
          · intro sid' hl'
            rw [alookup_aset] at hl'
            by_cases hs : sid' = sid
            · rw [if_pos hs] at hl'
              cases hl'
            · rw [if_neg hs] at hl'
              rw [hcount sid' hs]
              exact hRun3 sid' hl'
          · intro w
            have hx := hHist w
            unfold pendingWs at hx ⊢
            dsimp only
            rw [hpend w]
            exact hx
          · exact wf_setSessionStatus _ _ hWF
        simpa [applyRunGuard, hl, hr] using hgoal
  | callback sid snap e hrun hcb =>
    have hh : ∀ w, histCount (deliveredTo
        (deliverAll S.delivered (clientsOf S.clients sid) e) w) =
        histCount (deliveredTo S.delivered w) := fun w =>
      histCount_deliverAll _ _ _ _ (isHistory_of_isCallback hcb)
    simp only [applyBroadcast]
    refine ⟨?_, ?_, ?_, ?_, ?_⟩ <;> dsimp only
    · exact hRun1
    · exact hRun2
    · exact hRun3
    · intro w
      have hx := hHist w
      unfold pendingWs at hx ⊢
      dsimp only
      rw [hh w]
      exact hx
    · exact hWF
  | runSuccess l₁ l₂ sid snap updated h =>
    have hcount : ∀ s, runCount (l₁ ++ l₂ ++ [Task.runFinalize sid]) s =
        runCount S.tasks s := by
      intro s
      unfold runCount
      rw [h, countP_snoc, List.countP_append, countP_middle]
      simp [Task.isActiveRun]
    have hpend : ∀ w, (l₁ ++ l₂ ++ [Task.runFinalize sid]).countP
        (Task.isWsFor w) = S.tasks.countP (Task.isWsFor w) := by
      intro w
      rw [h, countP_snoc, List.countP_append, countP_middle]
      simp [Task.isWsFor]
    have hh : ∀ w, histCount (deliveredTo
        (deliverAll S.delivered (clientsOf S.clients sid) Event.done) w) =
        histCount (deliveredTo S.delivered w) := fun w =>
      histCount_deliverAll _ _ _ _ (by rfl)
    have hWF' : WF (persistNew S.db sid snap updated S.clock) :=
      wf_persistNew _ _ _ _ hWF
    rcases hl : alookup S.sessions sid with _ | st
    · have hgoal : Inv { S with
          db := persistNew S.db sid snap updated S.clock,
          clock := S.clock + 1,
          delivered := deliverAll S.delivered (clientsOf S.clients sid) Event.done,
          tasks := l₁ ++ l₂ ++ [Task.runFinalize sid] } := by
        refine ⟨?_, ?_, ?_, ?_, ?_⟩ <;> dsimp only
        · intro s
          rw [hcount]
          exact hRun1 s
        · intro sid' st' hl'
          rw [hcount]
          exact hRun2 sid' st' hl'
        · intro sid' hl'
          rw [hcount]
          exact hRun3 sid' hl'
        · intro w
          have hx := hHist w
          unfold pendingWs at hx ⊢
          dsimp only
          rw [hh w, hpend w]
          exact hx
        · exact hWF'
      simpa [applyRunSuccess, applyBroadcast, hl] using hgoal
    · have hgoal : Inv { S with
          sessions := aset S.sessions sid { st with messages := updated },
          db := persistNew S.db sid snap updated S.clock,
          clock := S.clock + 1,
          delivered := deliverAll S.delivered (clientsOf S.clients sid) Event.done,
          tasks := l₁ ++ l₂ ++ [Task.runFinalize sid] } := by
        refine ⟨?_, ?_, ?_, ?_, ?_⟩ <;> dsimp only
        · intro s
          rw [hcount]
          exact hRun1 s
        · intro sid' st' hl'
          rw [alookup_aset] at hl'
          rw [hcount]
          by_cases hs : sid' = sid
          · rw [if_pos hs] at hl'
            cases hl'
            subst hs
            exact hRun2 sid' st hl
          · rw [if_neg hs] at hl'
            exact hRun2 sid' st' hl'
        · intro sid' hl'
          rw [alookup_aset] at hl'
          rw [hcount]
          by_cases hs : sid' = sid
          · rw [if_pos hs] at hl'
            cases hl'
          · rw [if_neg hs] at hl'
            exact hRun3 sid' hl'
        · intro w
          have hx := hHist w
          unfold pendingWs at hx ⊢
          dsimp only
          rw [hh w, hpend w]
          exact hx
        · exact hWF'
      simpa [applyRunSuccess, applyBroadcast, hl] using hgoal
  | runFail l₁ l₂ sid snap msg h =>
    have hcount : ∀ s, runCount (l₁ ++ l₂ ++ [Task.runFinalize sid]) s =
        runCount S.tasks s := by
      intro s
      unfold runCount
      rw [h, countP_snoc, List.countP_append, countP_middle]
      simp [Task.isActiveRun]
    have hpend : ∀ w, (l₁ ++ l₂ ++ [Task.runFinalize sid]).countP
        (Task.isWsFor w) = S.tasks.countP (Task.isWsFor w) := by
      intro w
      rw [h, countP_snoc, List.countP_append, countP_middle]
      simp [Task.isWsFor]
    have hh : ∀ w, histCount (deliveredTo
        (deliverAll S.delivered (clientsOf S.clients sid) (Event.error msg)) w) =
        histCount (deliveredTo S.delivered w) := fun w =>
      histCount_deliverAll _ _ _ _ (by rfl)
    simp only [applyRunFail, applyBroadcast]
    refine ⟨?_, ?_, ?_, ?_, ?_⟩ <;> dsimp only
    · intro s
      rw [hcount]
      exact hRun1 s
    · intro sid' st' hl'
      rw [hcount]
      exact hRun2 sid' st' hl'
    · intro sid' hl'
      rw [hcount]
      exact hRun3 sid' hl'
    · intro w
      have hx := hHist w
      unfold pendingWs at hx ⊢
      dsimp only
      rw [hh w, hpend w]
      exact hx
    · exact hWF
  | runFinal l₁ l₂ sid h =>
    have hone : runCount S.tasks sid = runCount l₁ sid + runCount l₂ sid + 1 := by
      unfold runCount
      rw [h, countP_middle]
      simp [Task.isActiveRun]
    have hz : runCount l₁ sid + runCount l₂ sid = 0 := by
      have := hRun1 sid
      omega
    have hcount : ∀ s, ¬ s = sid → runCount (l₁ ++ l₂) s = runCount S.tasks s := by
      intro s hs
      unfold runCount
      have hd : ¬ sid = s := fun hc => hs hc.symm
      rw [h, List.countP_append, countP_middle]
      simp [Task.isActiveRun, hd]
    have hcsid : runCount (l₁ ++ l₂) sid = 0 := by
      have heq : runCount (l₁ ++ l₂) sid = runCount l₁ sid + runCount l₂ sid := by
        unfold runCount
        rw [List.countP_append]
      omega
    have hpend : ∀ w, (l₁ ++ l₂).countP (Task.isWsFor w) =
        S.tasks.countP (Task.isWsFor w) := by
      intro w
      rw [h, List.countP_append, countP_middle]
      simp [Task.isWsFor]
    rcases hl : alookup S.sessions sid with _ | st
    · exfalso
      have := hRun3 sid hl
      omega
    · have hgoal : Inv { S with
          sessions := aset S.sessions sid { st with isRunning := false },
          db := setSessionStatus S.db sid "idle",
          tasks := l₁ ++ l₂ } := by
        refine ⟨?_, ?_, ?_, ?_, ?_⟩ <;> dsimp only
        · intro s
          by_cases hs : s = sid
          · subst hs
            rw [hcsid]
            omega
          · rw [hcount s hs]
            exact hRun1 s
        · intro sid' st' hl'
          rw [alookup_aset] at hl'
          by_cases hs : sid' = sid
          · rw [if_pos hs] at hl'
            cases hl'
            subst hs
            rw [hcsid]
            constructor
            · intro hc
              cases hc
            · intro hc
              cases hc
          · rw [if_neg hs] at hl'
            rw [hcount sid' hs]
            exact hRun2 sid' st' hl'
        · intro sid' hl'
          rw [alookup_aset] at hl'
          by_cases hs : sid' = sid
          · rw [if_pos hs] at hl'
            cases hl'
          · rw [if_neg hs] at hl'
            rw [hcount sid' hs]
            exact hRun3 sid' hl'
        · intro w
          have hx := hHist w
          unfold pendingWs at hx ⊢
          dsimp only
          rw [hpend w]
          exact hx
        · exact wf_setSessionStatus _ _ hWF
      simpa [applyRunFinal, hl] using hgoal
  | wsConnect sid ws st h hfresh =>
    have hcount : ∀ s, runCount (S.tasks ++ [Task.wsHist sid ws]) s =
        runCount S.tasks s := by
      intro s
      unfold runCount
      rw [countP_snoc]
      simp [Task.isActiveRun]
    simp only [applyWsConnect]
    refine ⟨?_, ?_, ?_, ?_, ?_⟩ <;> dsimp only
    · intro s
      rw [hcount]
      exact hRun1 s
    · intro sid' st' hl'
      rw [hcount]
      exact hRun2 sid' st' hl'
    · intro sid' hl'
      rw [hcount]
      exact hRun3 sid' hl'
    · intro w
      by_cases hw : w = ws
      · subst hw
        have hdel : deliveredTo S.delivered w = [] := by
          unfold deliveredTo
          rw [alookup_eq_none_of_forall S.delivered w hfresh.2.1]
          rfl
        have hp0 : S.tasks.countP (Task.isWsFor w) = 0 := hfresh.2.2
        have hone : (S.tasks ++ [Task.wsHist sid w]).countP (Task.isWsFor w)
            = 1 := by
          rw [countP_snoc, hp0]
          simp [Task.isWsFor]
        unfold pendingWs
        dsimp only
        rw [hdel, hone]
        simp [histCount]
      · have hne : ¬ ws = w := fun hc => hw hc.symm
        have hsame : (S.tasks ++ [Task.wsHist sid ws]).countP (Task.isWsFor w) =
            S.tasks.countP (Task.isWsFor w) := by
          rw [countP_snoc]
          simp [Task.isWsFor, hne]
        have hx := hHist w
        unfold pendingWs at hx ⊢
        dsimp only
        rw [hsame]
        exact hx
    · exact hWF
  | wsHist l₁ l₂ sid ws h =>
    have hcount : ∀ s, runCount (l₁ ++ l₂) s = runCount S.tasks s := by
      intro s
      unfold runCount
      rw [h, List.countP_append, countP_middle]
      simp [Task.isActiveRun]
    simp only [applyWsHist]
    refine ⟨?_, ?_, ?_, ?_, ?_⟩ <;> dsimp only
    · intro s
      rw [hcount]
      exact hRun1 s
    · intro sid' st' hl'
      rw [hcount]
      exact hRun2 sid' st' hl'
    · intro sid' hl'
      rw [hcount]
      exact hRun3 sid' hl'
    · intro w
      have hold := hHist w
      unfold pendingWs at hold ⊢
      dsimp only
      by_cases hw : w = ws
      · subst hw
        have hsplit : S.tasks.countP (Task.isWsFor w) =
            l₁.countP (Task.isWsFor w) + l₂.countP (Task.isWsFor w) + 1 := by
          rw [h, countP_middle]
          simp [Task.isWsFor]
        have hz : l₁.countP (Task.isWsFor w) + l₂.countP (Task.isWsFor w) = 0 ∧
            histCount (deliveredTo S.delivered w) = 0 := by
          omega
        have hnew : deliveredTo (deliverOne S.delivered w
            (Event.history (getMessages S.db sid))) w =
            deliveredTo S.delivered w ++ [Event.history (getMessages S.db sid)] := by
          rw [deliveredTo_deliverOne, if_pos rfl]
        have hhc : histCount (deliveredTo (deliverOne S.delivered w
            (Event.history (getMessages S.db sid))) w) = 1 := by
          rw [hnew]
          unfold histCount
          rw [List.countP_append, List.countP_cons, List.countP_nil]
          have := hz.2
          unfold histCount at this
          simp [Event.isHistory, this]
        have hp' : (l₁ ++ l₂).countP (Task.isWsFor w) = 0 := by
          rw [List.countP_append]
          omega
        rw [hhc, hp']
      · have hne : ¬ w = ws := hw
        have hdel : deliveredTo (deliverOne S.delivered ws
            (Event.history (getMessages S.db sid))) w =
            deliveredTo S.delivered w := by
          rw [deliveredTo_deliverOne, if_neg hne]
        have hsame : (l₁ ++ l₂).countP (Task.isWsFor w) =
            S.tasks.countP (Task.isWsFor w) := by
          have hfw : Task.isWsFor w (Task.wsHist sid ws) = false := by
            simp [Task.isWsFor]
            exact fun hc => hw hc.symm
          rw [h, List.countP_append, countP_middle, hfw]
          simp
        rw [hdel, hsame]
        exact hold
    · exact hWF
  | wsDisconnect sid ws =>
    exact ⟨hRun1, hRun2, hRun3, hHist, hWF⟩

theorem inv_reachable {S : ServerState} (h : Reachable S) : Inv S := by
  induction h with
  | init =>
    refine ⟨?_, ?_, ?_, ?_, ?_⟩
    · intro s
      simp [runCount, initState]
    · intro sid st hl
      cases hl
    · intro sid _
      simp [runCount, initState]
    · intro w
      simp [pendingWs, histCount, deliveredTo, initState, alookup]
    · constructor
      · intro m hm
        cases hm
      · exact List.Pairwise.nil
  | step _ hstep ih => exact inv_step ih hstep

/-! Reachability of the example trace. -/

theorem reach_exSt1 : Reachable exSt1 :=
  Reachable.step Reachable.init (Step.create initState 1 exCfg "k" rfl (by decide))

theorem reach_exSt2 : Reachable exSt2 :=
  Reachable.step reach_exSt1 (Step.postStart exSt1 1 "hi" _ rfl)

theorem reach_exSt3 : Reachable exSt3 :=
  Reachable.step reach_exSt2 (Step.postInsert exSt2 [] [] 1 "hi" rfl)

theorem reach_exSt4 : Reachable exSt4 :=
  Reachable.step reach_exSt3 (Step.postCheck exSt3 [] [] 1 rfl)

theorem reach_exSt5 : Reachable exSt5 :=
  Reachable.step reach_exSt4 (Step.runGuard exSt4 [] [] 1 rfl)

theorem reach_exSt6 : Reachable exSt6 :=
  Reachable.step reach_exSt5 (Step.wsConnect exSt5 1 7 _ rfl (by
    refine ⟨?_, ?_, ?_⟩ <;> decide))

theorem reach_exSt7 : Reachable exSt7 :=
  Reachable.step reach_exSt6
    (Step.callback exSt6 1 1 (Event.assistantBlock "b") (by decide) rfl)

theorem reach_exSt8 : Reachable exSt8 :=
  Reachable.step reach_exSt7 (Step.wsHist exSt7 [Task.runAwait 1 1] [] 1 7 rfl)

/-- C1: in every reachable state at most one agent-loop invocation is in
progress per session, the `is_running` flag is set exactly while one is in
progress, a message post appends the user turn to the in-memory history
without changing the number of runs in progress, and the post-time idle
check starts no run while the session is running. -/
theorem claim1_single_run (S : ServerState) (hR : Reachable S) (sid : Nat) :
    runCount S.tasks sid ≤ 1 ∧
    (∀ st, alookup S.sessions sid = some st →
      (st.isRunning = true ↔ runCount S.tasks sid = 1)) ∧
    (∀ text st, alookup S.sessions sid = some st →
      alookup (applyPostStart S sid text).sessions sid =
        some { st with messages :=
          st.messages ++ [{ role := "user", content := text }] } ∧
      runCount (applyPostStart S sid text).tasks sid = runCount S.tasks sid) ∧
    (∀ l₁ l₂ st, S.tasks = l₁ ++ Task.postCheck sid :: l₂ →
      alookup S.sessions sid = some st → st.isRunning = true →
      (applyPostCheck S l₁ l₂ sid).tasks = l₁ ++ l₂) := by
  obtain ⟨h1, h2, _, _, _⟩ := inv_reachable hR
  refine ⟨h1 sid, fun st hst => h2 sid st hst, ?_, ?_⟩
  · intro text st hst
    constructor
    · simp only [applyPostStart, hst]
      rw [alookup_aset, if_pos rfl]
    · simp only [applyPostStart, hst]
      unfold runCount
      rw [countP_snoc]
      simp [Task.isActiveRun]
  · intro l₁ l₂ st htasks hst hrun
    simp only [applyPostCheck, hst]
    rw [if_pos hrun]

/-- Witness for C1: a concrete reachable state with the session running has
exactly one run in progress. -/
theorem claim1_single_run_witness : runCount exSt5.tasks 1 = 1 :=
  ((claim1_single_run exSt5 reach_exSt5 1).2.1 _ rfl).mp rfl

/-- C2: after a successful agent-loop return, the coordinator appends to the
durable store exactly the returned entries past the snapshot index, in
order with their roles and contents, so the durable message count grows by
exactly the number of new turns; this holds for every starting store, in
particular one extended by a mid-run user post. -/
theorem claim2_persists_new_turns (S : ServerState) (l₁ l₂ : List Task)
    (sid snap : Nat) (updated : List HMsg) :
    (applyRunSuccess S l₁ l₂ sid snap updated).db.messages =
      S.db.messages ++
        newRows S.db.nextMessageId sid (List.drop snap updated) S.clock ∧
    (applyRunSuccess S l₁ l₂ sid snap updated).db.messages.length =
      S.db.messages.length + (updated.length - snap) ∧
    (newRows S.db.nextMessageId sid (List.drop snap updated) S.clock).map
        (fun r => (r.role, r.content)) =
      (List.drop snap updated).map (fun m => (m.role, m.content)) := by
  have hdb : (applyRunSuccess S l₁ l₂ sid snap updated).db =
      persistNew S.db sid snap updated S.clock := by
    unfold applyRunSuccess applyBroadcast
    dsimp only
    cases alookup S.sessions sid <;> rfl
  have hmsg : (persistNew S.db sid snap updated S.clock).messages =
      S.db.messages ++
        newRows S.db.nextMessageId sid (List.drop snap updated) S.clock := by
    unfold persistNew
    by_cases hc : ¬ updated = [] ∧ snap < updated.length
    · rw [if_pos hc, appendMessages_messages]
    · rw [if_neg hc]
      have hdrop : List.drop snap updated = [] := by
        rcases Decidable.not_and_iff_or_not.mp hc with h1 | h2
        · have : updated = [] := Decidable.not_not.mp h1
          subst this
          simp
        · have : updated.length ≤ snap := Nat.le_of_not_lt h2
          exact List.drop_eq_nil_of_le this
      rw [hdrop]
      simp [newRows]
  refine ⟨by rw [hdb, hmsg], ?_, newRows_payload _ _ _ _⟩
  rw [hdb, hmsg, List.length_append, newRows_length, List.length_drop]

/-- C3 as stated is violated: in the reachable trace `exSt8`, subscriber 7
registered while a run was in progress, a callback `assistant_block`
broadcast fired after its registration (step `exSt6 → exSt7`) and was
delivered first, so the subscriber's received stream has a live event
before its `history` event. -/
theorem claim3_counterexample :
    Reachable exSt8 ∧
    deliveredTo exSt8.delivered 7 =
      [Event.assistantBlock "b",
       Event.history [⟨1, 1, "user", "hi", 1⟩]] ∧
    Event.isHistory (Event.assistantBlock "b") = false :=
  ⟨reach_exSt8, by decide, rfl⟩

/-- C3 (amended): every subscriber receives at most one `history` event; the
history send delivers exactly one `history` event whose content is the
session's persisted messages as of the read, in persisted (id) order —
but live events broadcast between the subscriber's registration and its
history send may be delivered before the `history` event. -/
theorem claim3_history_once (S : ServerState) (hR : Reachable S) :
    (∀ ws, histCount (deliveredTo S.delivered ws) ≤ 1) ∧
    (∀ l₁ l₂ sid ws, S.tasks = l₁ ++ Task.wsHist sid ws :: l₂ →
      deliveredTo (applyWsHist S l₁ l₂ sid ws).delivered ws =
        deliveredTo S.delivered ws ++ [Event.history (getMessages S.db sid)] ∧
      histCount (deliveredTo (applyWsHist S l₁ l₂ sid ws).delivered ws) = 1 ∧
      (getMessages S.db sid).Pairwise (fun a b => a.id < b.id)) := by
  obtain ⟨_, _, _, hH, hWFdb⟩ := inv_reachable hR
  constructor
  · intro ws
    have := hH ws
    omega
  · intro l₁ l₂ sid ws htasks
    have hpend1 : 1 ≤ pendingWs S ws := by
      unfold pendingWs
      rw [htasks, countP_middle]
      simp [Task.isWsFor]
    have hz : histCount (deliveredTo S.delivered ws) = 0 := by
      have := hH ws
      omega
    have hdel : deliveredTo (applyWsHist S l₁ l₂ sid ws).delivered ws =
        deliveredTo S.delivered ws ++
          [Event.history (getMessages S.db sid)] := by
      show deliveredTo (deliverOne S.delivered ws
        (Event.history (getMessages S.db sid))) ws = _
      rw [deliveredTo_deliverOne, if_pos rfl]
    refine ⟨hdel, ?_, ?_⟩
    · rw [hdel]
      unfold histCount at hz ⊢
      rw [List.countP_append, hz, List.countP_cons, List.countP_nil]
      simp [Event.isHistory]
    · rw [getMessages_eq_filter hWFdb]
      exact hWFdb.2.sublist (List.filter_sublist _)

/-- Witness for the amended C3 at the concrete trace state `exSt7`. -/
theorem claim3_history_once_witness :
    deliveredTo (applyWsHist exSt7 [Task.runAwait 1 1] [] 1 7).delivered 7 =
      deliveredTo exSt7.delivered 7 ++
        [Event.history (getMessages exSt7.db 1)] :=
  ((claim3_history_once exSt7 reach_exSt7).2 [Task.runAwait 1 1] [] 1 7 rfl).1

/-- C4: if the agent-loop call raises, the error broadcast followed by the
`finally` block delivers exactly one `error` event to every registered
subscriber (and nothing to anyone else), persists no message, leaves the
in-memory history unmodified, clears the run flag and mirrors `idle` into
the durable status. -/
theorem claim4_run_failure (S : ServerState) (l₁ l₂ l₃ l₄ : List Task)
    (sid : Nat) (msg : String) (hnd : (clientsOf S.clients sid).Nodup) :
    (∀ ws, ws ∈ clientsOf S.clients sid →
      deliveredTo (applyRunFinal (applyRunFail S l₁ l₂ sid msg) l₃ l₄
          sid).delivered ws =
        deliveredTo S.delivered ws ++ [Event.error msg]) ∧
    (∀ ws, ws ∉ clientsOf S.clients sid →
      deliveredTo (applyRunFinal (applyRunFail S l₁ l₂ sid msg) l₃ l₄
          sid).delivered ws =
        deliveredTo S.delivered ws) ∧
    (applyRunFinal (applyRunFail S l₁ l₂ sid msg) l₃ l₄ sid).db.messages =
      S.db.messages ∧
    (∀ st, alookup S.sessions sid = some st →
      alookup (applyRunFinal (applyRunFail S l₁ l₂ sid msg) l₃ l₄
          sid).sessions sid = some { st with isRunning := false }) ∧
    (∀ row ∈ (applyRunFinal (applyRunFail S l₁ l₂ sid msg) l₃ l₄
        sid).db.sessions, row.id = sid → row.status = "idle") := by
  have hdel2 : (applyRunFinal (applyRunFail S l₁ l₂ sid msg) l₃ l₄
      sid).delivered =
      deliverAll S.delivered (clientsOf S.clients sid) (Event.error msg) := by
    unfold applyRunFinal applyRunFail applyBroadcast
    dsimp only
    cases alookup S.sessions sid <;> rfl
  have hdb2 : (applyRunFinal (applyRunFail S l₁ l₂ sid msg) l₃ l₄ sid).db =
      setSessionStatus S.db sid "idle" := by
    unfold applyRunFinal applyRunFail applyBroadcast
    dsimp only
    cases alookup S.sessions sid <;> rfl
  refine ⟨?_, ?_, ?_, ?_, ?_⟩
  · intro ws hmem
    rw [hdel2]
    exact deliveredTo_deliverAll_mem _ _ _ _ hnd hmem
  · intro ws hmem
    rw [hdel2]
    exact deliveredTo_deliverAll_notMem _ _ _ _ hmem
  · rw [hdb2]
    rfl
  · intro st hst
    have hses : (applyRunFinal (applyRunFail S l₁ l₂ sid msg) l₃ l₄
        sid).sessions = aset S.sessions sid { st with isRunning := false } := by
      unfold applyRunFinal applyRunFail applyBroadcast
      dsimp only
      rw [hst]
    rw [hses, alookup_aset, if_pos rfl]
  · intro row hrow hid
    rw [hdb2] at hrow
    exact setSessionStatus_status _ _ _ row hrow hid

/-- Witness for C4 at the concrete trace state `exSt7` with subscriber 7. -/
theorem claim4_run_failure_witness :
    deliveredTo (applyRunFinal (applyRunFail exSt7 [] [] 1 "boom") [] []
        1).delivered 7 =
      deliveredTo exSt7.delivered 7 ++ [Event.error "boom"] :=
  (claim4_run_failure exSt7 [] [] [] [] 1 "boom" (by decide)).1 7 (by decide)

/-- C5 as stated is violated: with no resolvable credential (missing key
file and empty environment variable) but a non-Anthropic provider, session
creation does not fail with 400 — it returns a descriptor and creates the
session in both the registry and the durable store. -/
theorem claim5_counterexample :
    readApiKeyFromStorage none "" = "" ∧
    (createSession initState bedrockCfg (readApiKeyFromStorage none "")
        5 6 7).2 = Except.ok (responseOf bedrockCfg 5 7) ∧
    alookup (createSession initState bedrockCfg (readApiKeyFromStorage none "")
        5 6 7).1.sessions 5 = some (sessionStateOf bedrockCfg 5 "") ∧
    (createSession initState bedrockCfg (readApiKeyFromStorage none "")
        5 6 7).1.db.sessions = [sessionRowOf bedrockCfg 5 6] :=
  ⟨rfl, rfl, rfl, rfl⟩

/-- C5 (amended): only for the Anthropic provider does a missing credential
fail the creation with 400 before any state is touched; whenever the guard
passes (non-Anthropic provider, or a resolvable credential) a session is
allocated in status `idle` in both the registry and the durable store and
its descriptor is returned. -/
theorem claim5_create_credential (S : ServerState) (req : SessionConfig)
    (fileVal : Option String) (envVal : String) (t1 t2 t3 : Nat) :
    (req.provider = APIProvider.anthropic →
      readApiKeyFromStorage fileVal envVal = "" →
      createSession S req (readApiKeyFromStorage fileVal envVal) t1 t2 t3 =
        (S, Except.error 400)) ∧
    (¬ (req.provider = APIProvider.anthropic ∧
        readApiKeyFromStorage fileVal envVal = "") →
      createSession S req (readApiKeyFromStorage fileVal envVal) t1 t2 t3 =
        ({ S with
            sessions := aset S.sessions t1
              (sessionStateOf req t1 (readApiKeyFromStorage fileVal envVal)),
            clients := ensureClients S.clients t1,
            db := insertSessionRow S.db (sessionRowOf req t1 t2) },
          Except.ok (responseOf req t1 t3)) ∧
      (sessionStateOf req t1 (readApiKeyFromStorage fileVal envVal)).isRunning
          = false ∧
      (sessionRowOf req t1 t2).status = "idle" ∧
      (responseOf req t1 t3).status = "idle") := by
  constructor
  · intro h1 h2
    unfold createSession
    rw [if_pos ⟨h1, h2⟩]
  · intro h
    unfold createSession
    rw [if_neg h]
    exact ⟨rfl, rfl, rfl, rfl⟩

/-- Witness for the amended C5: the Anthropic 400 branch at concrete inputs. -/
theorem claim5_create_credential_witness :
    createSession initState exCfg (readApiKeyFromStorage none "") 5 6 7 =
      (initState, Except.error 400) :=
  (claim5_create_credential initState exCfg none "" 5 6 7).1 rfl rfl

/-- C6: deleting a session always answers `deleted`, removes every durable
message of that session and its session row (leaving other sessions'
messages untouched), and a subsequent message listing for that id fails
with 404 instead of returning an empty list. -/
theorem claim6_delete_idempotent (S : ServerState) (sid : Nat) :
    (deleteSessionRoute S sid).2 = "deleted" ∧
    (deleteSessionRoute S sid).1.db.messages.filter
      (fun m => m.sessionId = sid) = [] ∧
    (deleteSessionRoute S sid).1.db.sessions.filter
      (fun r => r.id = sid) = [] ∧
    (deleteSessionRoute S sid).1.db.messages =
      S.db.messages.filter (fun m => ¬ m.sessionId = sid) ∧
    getSessionMessagesRoute (deleteSessionRoute S sid).1 sid =
      Except.error 404 := by
  refine ⟨rfl, ?_, ?_, rfl, ?_⟩
  · apply List.filter_eq_nil_iff.mpr
    intro m hm
    have := List.of_mem_filter hm
    simp at this ⊢
    exact this
  · apply List.filter_eq_nil_iff.mpr
    intro r hr
    have := List.of_mem_filter hr
    simp at this ⊢
    exact this
  · unfold getSessionMessagesRoute deleteSessionRoute
    dsimp only
    rw [alookup_popSession]

/-- C7: any sequence of appends to a well-formed store returns strictly
increasing message identifiers in append order, and the subsequent listing
returns the prior messages followed by exactly the appended entries
(role and content), in order — so order and count round-trip. -/
theorem claim7_append_order (db : DB) (sid : Nat) (entries : List HMsg)
    (now : Nat) (hwf : WF db) :
    ((appendMessages db sid entries now).2).Pairwise (· < ·) ∧
    (appendMessages db sid entries now).2.length = entries.length ∧
    getMessages (appendMessages db sid entries now).1 sid =
      getMessages db sid ++ newRows db.nextMessageId sid entries now ∧
    (getMessages (appendMessages db sid entries now).1 sid).length =
      (getMessages db sid).length + entries.length ∧
    (newRows db.nextMessageId sid entries now).map
        (fun r => (r.role, r.content)) =
      entries.map (fun m => (m.role, m.content)) ∧
    WF (appendMessages db sid entries now).1 := by
  refine ⟨?_, ?_, getMessages_appendMessages hwf sid entries now, ?_,
    newRows_payload _ _ _ _, wf_appendMessages sid entries now hwf⟩
  · rw [appendMessages_ids]
    exact List.pairwise_map.mpr (newRows_pairwise _ _ _ _)
  · rw [appendMessages_ids, List.length_map, newRows_length]
  · rw [getMessages_appendMessages hwf sid entries now, List.length_append,
      newRows_length]

/-- Witness for C7: two appends to the empty store round-trip. -/
theorem claim7_append_order_witness :
    getMessages (appendMessages initState.db 1
        [⟨"user", "a"⟩, ⟨"assistant", "b"⟩] 0).1 1 =
      getMessages initState.db 1 ++
        newRows initState.db.nextMessageId 1
          [⟨"user", "a"⟩, ⟨"assistant", "b"⟩] 0 :=
  (claim7_append_order initState.db 1 [⟨"user", "a"⟩, ⟨"assistant", "b"⟩] 0
    ⟨fun m hm => by simp [initState] at hm, List.Pairwise.nil⟩).2.2.1

/-- C8: the broadcast send loop delivers the event exactly once to every
snapshot member whose send succeeds; a subscriber not in the snapshot (for
example one registered while the publish is in progress) receives nothing;
a failed send removes exactly that subscriber from the live set without
affecting delivery to the others, and every live subscriber without a
failed send survives the cleanup. -/
theorem claim8_broadcast_isolation (snapshot live : List Nat)
    (ok : Nat → Bool) (e : Event) (d : List (Nat × List Event))
    (hnd : snapshot.Nodup) :
    (∀ ws, ws ∈ snapshot → ok ws = true →
      deliveredTo (sendLoop ok e snapshot d).1 ws =
        deliveredTo d ws ++ [e]) ∧
    (∀ ws, ws ∉ snapshot →
      deliveredTo (sendLoop ok e snapshot d).1 ws = deliveredTo d ws) ∧
    (∀ ws, ws ∈ snapshot → ok ws = false →
      deliveredTo (sendLoop ok e snapshot d).1 ws = deliveredTo d ws ∧
      ws ∉ broadcastFinish live (sendLoop ok e snapshot d).2) ∧
    (∀ ws, ws ∈ live → (ws ∈ snapshot → ok ws = true) →
      ws ∈ broadcastFinish live (sendLoop ok e snapshot d).2) := by
  refine ⟨?_, ?_, ?_, ?_⟩
  · intro ws hmem hok
    rw [sendLoop_deliveredTo ok e snapshot d ws hnd, if_pos ⟨hmem, hok⟩]
  · intro ws hmem
    rw [sendLoop_deliveredTo ok e snapshot d ws hnd,
      if_neg (fun hc => hmem hc.1)]
  · intro ws hmem hok
    constructor
    · rw [sendLoop_deliveredTo ok e snapshot d ws hnd,
        if_neg (fun hc => by rw [hok] at hc; exact absurd hc.2 (by simp))]
    · intro hfin
      have hdead : ws ∉ (sendLoop ok e snapshot d).2 :=
        ((mem_broadcastFinish _ _ _).mp hfin).2
      apply hdead
      rw [sendLoop_snd]
      exact List.mem_filter.mpr ⟨hmem, by simp [hok]⟩
  · intro ws hlive hsnap
    apply (mem_broadcastFinish _ _ _).mpr
    refine ⟨hlive, ?_⟩
    intro hdead
    rw [sendLoop_snd] at hdead
    have := List.mem_filter.mp hdead
    have hok := hsnap this.1
    rw [hok] at this
    exact absurd this.2 (by simp)

/-- Witness for C8: subscriber 2's send fails, 1 still receives the event,
2 is removed, and late subscriber 3 (absent from the snapshot) survives
and receives nothing. -/
theorem claim8_broadcast_isolation_witness :
    deliveredTo (sendLoop (fun w => ! (w == 2)) Event.done [1, 2] []).1 1 =
      [Event.done] ∧
    deliveredTo (sendLoop (fun w => ! (w == 2)) Event.done [1, 2] []).1 3 =
      [] ∧
    2 ∉ broadcastFinish [1, 2, 3]
      (sendLoop (fun w => ! (w == 2)) Event.done [1, 2] []).2 ∧
    3 ∈ broadcastFinish [1, 2, 3]
      (sendLoop (fun w => ! (w == 2)) Event.done [1, 2] []).2 := by
  have h := claim8_broadcast_isolation [1, 2] [1, 2, 3]
    (fun w => ! (w == 2)) Event.done [] (by decide)
  refine ⟨?_, ?_, ?_, ?_⟩
  · have := h.1 1 (by decide) (by decide)
    simpa using this
  · have := h.2.1 3 (by decide)
    simpa using this
  · exact (h.2.2.1 2 (by decide) (by decide)).2
  · exact h.2.2.2 3 (by decide) (fun hc => by decide)

/-- C9: two session creations colliding on the same timestamp-derived
identifier do not fail: the second silently replaces the first session's
registry entry and its durable row, overwriting the configuration and
resetting the persisted status to `idle`. -/
theorem claim9_id_collision (S : ServerState) (r₁ r₂ : SessionConfig)
    (k₁ k₂ : String) (t t₂ t₃ t₄ t₅ : Nat)
    (h₁ : ¬ (r₁.provider = APIProvider.anthropic ∧ k₁ = ""))
    (h₂ : ¬ (r₂.provider = APIProvider.anthropic ∧ k₂ = "")) :
    (createSession (createSession S r₁ k₁ t t₂ t₃).1 r₂ k₂ t t₄ t₅).2 =
      Except.ok (responseOf r₂ t t₅) ∧
    alookup (createSession (createSession S r₁ k₁ t t₂ t₃).1 r₂ k₂ t t₄
        t₅).1.sessions t = some (sessionStateOf r₂ t k₂) ∧
    (createSession (createSession S r₁ k₁ t t₂ t₃).1 r₂ k₂ t t₄
        t₅).1.db.sessions.filter (fun r => r.id = t) =
      [sessionRowOf r₂ t t₄] ∧
    (sessionRowOf r₂ t t₄).status = "idle" := by
  unfold createSession
  rw [if_neg h₁]
  dsimp only
  rw [if_neg h₂]
  refine ⟨rfl, ?_, ?_, rfl⟩
  · rw [alookup_aset, if_pos rfl]
  · show ((insertSessionRow (insertSessionRow S.db (sessionRowOf r₁ t t₂))
      (sessionRowOf r₂ t t₄)).sessions).filter (fun r => r.id = t) =
      [sessionRowOf r₂ t t₄]
    unfold insertSessionRow
    dsimp only
    have hid₁ : (sessionRowOf r₁ t t₂).id = t := rfl
    have hid₂ : (sessionRowOf r₂ t t₄).id = t := rfl
    simp only [hid₁, hid₂]
    rw [List.filter_append]
    have hnil : ∀ L : List DBSessionRow,
        ((L.filter (fun r => ¬ r.id = t)).filter (fun r => r.id = t)) = [] := by
      intro L
      apply List.filter_eq_nil_iff.mpr
      intro a ha
      have := List.of_mem_filter ha
      simp at this ⊢
      exact this
    rw [hnil]
    simp [sessionRowOf]

/-- Witness for C9 at concrete colliding creations. -/
theorem claim9_id_collision_witness :
    alookup (createSession (createSession initState bedrockCfg "" 5 6 7).1
        exCfg "kk" 5 8 9).1.sessions 5 = some (sessionStateOf exCfg 5 "kk") :=
  (claim9_id_collision initState bedrockCfg exCfg "" "kk" 5 6 7 8 9
    (by decide) (by decide)).2.1

/-- C10: the `created_at` of the returned descriptor comes from a clock
read (`t3`) distinct from the clock read (`t2`) persisted in the durable
row that the session listing later reports, so whenever the two reads
differ the two timestamps differ. -/
theorem claim10_two_clock_reads (S : ServerState) (req : SessionConfig)
    (key : String) (t1 t2 t3 : Nat)
    (hok : ¬ (req.provider = APIProvider.anthropic ∧ key = "")) :
    (createSession S req key t1 t2 t3).2 =
      Except.ok (responseOf req t1 t3) ∧
    (responseOf req t1 t3).createdAt = t3 ∧
    sessionRowOf req t1 t2 ∈
      listSessionsRoute (createSession S req key t1 t2 t3).1 ∧
    (sessionRowOf req t1 t2).createdAt = t2 ∧
    (¬ t2 = t3 →
      ¬ (responseOf req t1 t3).createdAt = (sessionRowOf req t1 t2).createdAt)
    := by
  unfold createSession
  rw [if_neg hok]
  refine ⟨rfl, rfl, ?_, rfl, ?_⟩
  · show sessionRowOf req t1 t2 ∈
      listSessionsRoute { S with
        sessions := aset S.sessions t1 (sessionStateOf req t1 key),
        clients := ensureClients S.clients t1,
        db := insertSessionRow S.db (sessionRowOf req t1 t2) }
    unfold listSessionsRoute getSessions insertSessionRow
    dsimp only
    rw [mem_sortBy]
    exact List.mem_append.mpr (Or.inr (List.mem_singleton.mpr rfl))
  · intro hne hc
    exact hne (hc.symm)

/-- Witness for C10: with clock reads 6 and 7 the descriptor timestamp and
the listed row timestamp differ. -/
theorem claim10_two_clock_reads_witness :
    ¬ (responseOf exCfg 5 7).createdAt = (sessionRowOf exCfg 5 6).createdAt :=
  (claim10_two_clock_reads initState exCfg "k" 5 6 7
    (by decide)).2.2.2.2 (by decide)

end Server
